import Mathlib

/-!
Verification of the bencher micro-benchmarking engine.

The development shallowly embeds the measurement/regression core of the
repository (`src/bin/bencher.ts`, with the historical variants in
`src/unnamed/part_000` and `src/unnamed/part_001`) over exact rational
arithmetic.  The exact-arithmetic convention for division by zero is
Lean's `q / 0 = 0`; places where IEEE floats would instead produce
`NaN`/`Infinity` are pointed out in the doc comments of the affected
definitions and theorems.  The monotonic clock is modelled as an oracle
`meas : ℚ → ℚ` mapping an invocation count to the measured duration of
that batch, which makes every pipeline stage a pure function of the
clock oracle and the runner options.
-/

namespace Bencher

/-- One timed execution: `iterations` consecutive invocations took
`duration` seconds (`type Sample` in `bencher.ts`). -/
structure Sample where
  iterations : ℚ
  duration : ℚ
deriving DecidableEq, Repr

/-- The validated runner options (`RunnerOptions` in `bencher.ts`):
`duration` is the time budget in seconds, `samples` the number of
samples to collect, `sweepWidth` the width of the iteration sweep. -/
structure Options where
  duration : ℚ
  samples : ℕ
  sweepWidth : ℕ
  warmUpIterations : ℕ
deriving DecidableEq, Repr

/-! ## Model of JavaScript's default `Array.prototype.sort`

`regress` sorts each bin with `durations.sort()`, i.e. with the
*default* comparator, which per the ECMAScript specification compares
the `ToString` images of the elements code unit by code unit — a
lexicographic, not numeric, order.  We model the string ordering
exactly for non-negative integral values (JavaScript renders an
integral double below 2^21 as its plain decimal numeral): the key of
such a value is its list of decimal digits, most significant first,
and keys are compared lexicographically with the prefix smaller.  For
non-integral or negative values (whose shortest-round-trip double
rendering we do not model) the comparator falls back to the numeric
order; every concrete bin evaluated in this development consists of
non-negative integers, so only the faithful branch is ever exercised.
The sort itself is a stable insertion sort, which agrees with the
(stable, ES2019) JavaScript sort on the resulting list. -/

/-- Decimal digits of `n`, least significant first, with explicit fuel
(structural recursion; `fuel = n` always suffices). -/
def natDigitsRev (fuel n : ℕ) : List ℕ :=
  match fuel with
  | 0 => []
  | f + 1 => if n < 10 then [n] else n % 10 :: natDigitsRev f (n / 10)

/-- Decimal numeral of `n`, most significant digit first: the string
key JavaScript uses when sorting an array of such numbers. -/
def decKey (n : ℕ) : List ℕ := (natDigitsRev n n).reverse

/-- Lexicographic comparison of digit strings, a proper prefix being
smaller (exactly the ECMAScript string `<` on decimal numerals). -/
def strLe : List ℕ → List ℕ → Bool
  | [], _ => true
  | _ :: _, [] => false
  | a :: as, b :: bs => if a < b then true else if b < a then false else strLe as bs

/-- The default-comparator order used by `durations.sort()`: string
comparison of the decimal renderings.  Faithful for non-negative
integral values; falls back to numeric order otherwise (see the
section comment). -/
def jsLeB (a b : ℚ) : Bool :=
  if a.den = 1 ∧ b.den = 1 ∧ 0 ≤ a.num ∧ 0 ≤ b.num then
    strLe (decKey a.num.toNat) (decKey b.num.toNat)
  else
    decide (a ≤ b)

/-- Stable insertion of `d` into a `jsLeB`-sorted list (placed before
the first element it does not exceed). -/
def jsInsert (d : ℚ) : List ℚ → List ℚ
  | [] => [d]
  | e :: es => if jsLeB d e then d :: e :: es else e :: jsInsert d es

/-- Model of `durations.sort()` — stable sort by the default (string)
comparator. -/
def jsSort : List ℚ → List ℚ
  | [] => []
  | d :: ds => jsInsert d (jsSort ds)

/-- Numeric-ascending stable insertion, for the ordering the spec and
claims describe (`sort durations ascending (numerically)`). -/
def numInsert (d : ℚ) : List ℚ → List ℚ
  | [] => [d]
  | e :: es => if d ≤ e then d :: e :: es else e :: numInsert d es

/-- Numeric ascending sort: the claim-side ordering, to be compared
with the source's `jsSort`. -/
def numSort : List ℚ → List ℚ
  | [] => []
  | d :: ds => numInsert d (numSort ds)

/-! ## Outlier classifier

`regress` computes `p25 = durations[Math.floor(durations.length * 0.25)]`
and `p75 = durations[Math.ceil(durations.length * 0.75)]` on the sorted
array; both float products are exact, so the indices are exactly
`⌊n/4⌋` and `⌈3n/4⌉`.  An out-of-range index yields `undefined`, turned
into `-Infinity` / `+Infinity` by `??`.  Whenever one of the quartiles
is infinite, `iqr` and both fence bounds become infinite as well and
the comparisons `d >= -Infinity`, `d <= Infinity` (and the strict
outlier tests against infinite bounds) hold vacuously, so the bin is
not fenced at all; the models below realise those cases with a
catch-all branch that keeps (respectively, classifies as normal)
every duration. -/

/-- Index of the lower quartile: `Math.floor(n * 0.25)`. -/
def i25 (n : ℕ) : ℕ := n / 4

/-- Index of the upper quartile: `Math.ceil(n * 0.75)`. -/
def i75 (n : ℕ) : ℕ := (3 * n + 3) / 4

/-- The two rank-based quartiles of a bin, read off the array sorted by
the given sort function (`none` encodes the `-Infinity`/`+Infinity`
substitution for an out-of-range index). -/
def binQuartiles (sortFn : List ℚ → List ℚ) (durs : List ℚ) : Option ℚ × Option ℚ :=
  let sorted := sortFn durs
  (sorted[i25 sorted.length]?, sorted[i75 sorted.length]?)

/-- Mild-fence membership test used by the filtering-mode classifier
(`d >= p25 - iqr*1.5 && d <= p75 + iqr*1.5`); with an infinite
quartile the fence is infinite and every duration passes. -/
def binKeep (sortFn : List ℚ → List ℚ) (durs : List ℚ) : ℚ → Bool :=
  match binQuartiles sortFn durs with
  | (some p25, some p75) =>
      fun d => decide (p25 - (p75 - p25) * (3 / 2) ≤ d ∧ d ≤ p75 + (p75 - p25) * (3 / 2))
  | _ => fun _ => true

/-- Filtering mode of one bin (`bencher.ts` lines 230–242): sort, fence,
and keep the durations inside the mild fence, in sorted order. -/
def binRetained (sortFn : List ℚ → List ℚ) (durs : List ℚ) : List ℚ :=
  (sortFn durs).filter (binKeep sortFn durs)

/-- The three classes of the counting-mode classifier
(`src/unnamed/part_001` lines 296–303). -/
inductive SampleClass where
  | normal
  | outlier
  | severeOutlier
deriving DecidableEq, Repr

/-- Classification of one duration against finite quartiles: outside
the severe fence (`p25/p75 ∓ 3·iqr`) → severe outlier; otherwise
outside the mild fence (`p25/p75 ∓ 1.5·iqr`) → outlier; otherwise
normal (`src/unnamed/part_001` lines 297–303). -/
def classifyD (p25 p75 d : ℚ) : SampleClass :=
  if d < p25 - (p75 - p25) * 3 ∨ p75 + (p75 - p25) * 3 < d then .severeOutlier
  else if d < p25 - (p75 - p25) * (3 / 2) ∨ p75 + (p75 - p25) * (3 / 2) < d then .outlier
  else .normal

/-- Counting mode of one bin: the number of (mild) outliers and severe
outliers among its durations; with an infinite quartile every test
against an infinite bound fails and every duration is normal. -/
def binCounts (sortFn : List ℚ → List ℚ) (durs : List ℚ) : ℕ × ℕ :=
  match binQuartiles sortFn durs with
  | (some p25, some p75) =>
      ((sortFn durs).countP (fun d => decide (classifyD p25 p75 d = .outlier)),
       (sortFn durs).countP (fun d => decide (classifyD p25 p75 d = .severeOutlier)))
  | _ => (0, 0)

/-- Number of durations of a bin classified normal in counting mode. -/
def binNormalCount (sortFn : List ℚ → List ℚ) (durs : List ℚ) : ℕ :=
  match binQuartiles sortFn durs with
  | (some p25, some p75) =>
      (sortFn durs).countP (fun d => decide (classifyD p25 p75 d = .normal))
  | _ => durs.length

/-! ## Ordinary least squares fit

`regress` (`bencher.ts` lines 253–288), applied to the retained sample
set.  All arithmetic is exact rational arithmetic; `n - 2` is computed
after casting the length to `ℚ`, matching the float subtraction of the
source.  Note that a retained set of exactly 2 samples makes the
residual divisor `n - 2` zero — the source then divides `0` by `0`
(producing `NaN` in floats, `0` under the rational convention). -/

/-- Mean duration `d̄` of a sample set. -/
def meanDuration (s : List Sample) : ℚ := (s.map (·.duration)).sum / s.length

/-- Mean iteration count `x̄` of a sample set. -/
def meanIterations (s : List Sample) : ℚ := (s.map (·.iterations)).sum / s.length

/-- Slope numerator `Σ (d_i - d̄)·(x_i - x̄)`. -/
def betaNum (s : List Sample) : ℚ :=
  (s.map fun p => (p.duration - meanDuration s) * (p.iterations - meanIterations s)).sum

/-- Slope denominator `Σ (x_i - x̄)²`. -/
def betaDenom (s : List Sample) : ℚ :=
  (s.map fun p => (p.iterations - meanIterations s) ^ 2).sum

/-- Fitted slope `beta = betaNum / betaDenom`. -/
def fitSlope (s : List Sample) : ℚ := betaNum s / betaDenom s

/-- Fitted intercept `alpha = d̄ - beta·x̄`. -/
def fitIntercept (s : List Sample) : ℚ :=
  meanDuration s - fitSlope s * meanIterations s

/-- Sum of squared residuals `Σ (d_i - alpha - beta·x_i)²`. -/
def residSumSq (s : List Sample) : ℚ :=
  (s.map fun p => (p.duration - fitIntercept s - fitSlope s * p.iterations) ^ 2).sum

/-- Square of the standard error of the slope:
`(residSumSq / (n - 2)) / betaDenom` — the quantity whose square root
the source takes as `stdError`. -/
def stdErrSq (s : List Sample) : ℚ :=
  residSumSq s / ((s.length : ℚ) - 2) / betaDenom s

/-- The fixed two-sided critical value `STUDENT_T = 3.09` of
`bencher.ts` (large-sample t distribution at p = 0.001). -/
def studentT : ℝ := 3.09

/-- Standard error of the slope, `Math.sqrt` of `stdErrSq`. -/
noncomputable def standardError (s : List Sample) : ℝ := Real.sqrt (stdErrSq s)

/-- Confidence radius `STUDENT_T * stdError` returned by `regress`. -/
noncomputable def confidence (s : List Sample) : ℝ := studentT * standardError s

/-- The computed part of a regression result (the `Regression` record
of `bencher.ts` with the confidence radius carried as its square-root
argument `stdErrSq`, since an exact square root leaves `ℚ`). -/
structure Fit where
  alpha : ℚ
  beta : ℚ
  stdErrSq : ℚ
deriving DecidableEq, Repr

/-- The fitting stage of `regress` on the retained sample set: throws
`low sample count` when fewer than 2 samples remain, otherwise returns
the fit.  This is the *only* throw in `regress`; in particular a
zero-variance sweep (`betaDenom = 0`) is not detected. -/
def fitOLS (s : List Sample) : Except String Fit :=
  if s.length < 2 then .error "low sample count"
  else .ok ⟨fitIntercept s, fitSlope s, stdErrSq s⟩

/-! ## Spec-side formulas (refinement targets for C1)

These definitions follow the wording of the spec (§4.4) rather than
the source; C1 compares the source's fit against them. -/

/-- Spec formula `beta = Σ(d_i − d̄)(x_i − x̄) / Σ(x_i − x̄)²`. -/
def specSlope (s : List Sample) : ℚ :=
  (s.map fun p => (p.duration - meanDuration s) * (p.iterations - meanIterations s)).sum /
    (s.map fun p => (p.iterations - meanIterations s) ^ 2).sum

/-- Spec formula `alpha = d̄ − beta·x̄`. -/
def specIntercept (s : List Sample) : ℚ := meanDuration s - specSlope s * meanIterations s

/-- Spec residual variance `σ² = Σ(d_i − alpha − beta·x_i)² / (n − 2)`. -/
def specSigmaSq (s : List Sample) : ℚ :=
  (s.map fun p => (p.duration - specIntercept s - specSlope s * p.iterations) ^ 2).sum /
    ((s.length : ℚ) - 2)

/-! ## Binning and the full `regress` of `bencher.ts` -/

/-- Insert one sample into the bin list, preserving first-seen key
order (the iteration order of the JavaScript `Map`). -/
def insertSample : List (ℚ × List ℚ) → Sample → List (ℚ × List ℚ)
  | [], p => [(p.iterations, [p.duration])]
  | (k, ds) :: rest, p =>
      if k = p.iterations then (k, ds ++ [p.duration]) :: rest
      else (k, ds) :: insertSample rest p

/-- Group the samples into bins keyed by iteration count
(`bencher.ts` lines 218–226). -/
def binsOf (samples : List Sample) : List (ℚ × List ℚ) :=
  samples.foldl insertSample []

/-- The retained sample set: per bin, the durations inside the mild
fence, re-paired with the bin's iteration count
(`bencher.ts` lines 229–247). -/
def withoutOutliers (sortFn : List ℚ → List ℚ) (samples : List Sample) : List Sample :=
  (binsOf samples).flatMap fun b => (binRetained sortFn b.2).map fun d => ⟨b.1, d⟩

/-- A full `regress` result of `bencher.ts`: the fit plus the count of
samples removed by the mild fences. -/
structure Reg where
  alpha : ℚ
  beta : ℚ
  stdErrSq : ℚ
  outliers : ℕ
deriving DecidableEq, Repr

/-- `regress` of `bencher.ts`: filter each bin by its mild fence, fail
on fewer than 2 retained samples, and fit the retained set;
`outliers = samples.length - withoutOutliers.length`. -/
def regressB (sortFn : List ℚ → List ℚ) (samples : List Sample) : Except String Reg :=
  if (withoutOutliers sortFn samples).length < 2 then .error "low sample count"
  else .ok ⟨fitIntercept (withoutOutliers sortFn samples), fitSlope (withoutOutliers sortFn samples),
    stdErrSq (withoutOutliers sortFn samples), samples.length - (withoutOutliers sortFn samples).length⟩

/-- Total number of severe outliers over all bins, as the counting-mode
`regress` of `src/unnamed/part_001` reports it. -/
def severeCountOf (sortFn : List ℚ → List ℚ) (samples : List Sample) : ℕ :=
  ((binsOf samples).map fun b => (binCounts sortFn b.2).2).sum

/-- Total number of mild outliers over all bins (counting mode). -/
def outlierCountOf (sortFn : List ℚ → List ℚ) (samples : List Sample) : ℕ :=
  ((binsOf samples).map fun b => (binCounts sortFn b.2).1).sum

/-! ## Calibration (`warmUp`, `bencher.ts` lines 165–192) -/

/-- `Math.round`: round half toward positive infinity. -/
def jsRound (q : ℚ) : ℤ := ⌊q + 1 / 2⌋

/-- Total invocation-count multiplier of the full sweep:
`Σ_{i=0}^{samples-1} (1 + i mod sweepWidth)`. -/
def sweepTotal (o : Options) : ℚ :=
  ((List.range o.samples).map fun i => (1 : ℚ) + (i % o.sweepWidth : ℕ)).sum

/-- Wall-clock ceiling for one base-scale sample:
`maxSampleDuration = duration / sampleMultiplier`. -/
def maxDur (o : Options) : ℚ := o.duration / sweepTotal o

/-- The geometric search of `warmUp`: starting from `cur`, double,
measure `meas (Math.round iterations)`, and stop at the first step
whose duration is not below `maxD`, returning that step's iteration
count and duration.  The source's `do … while` has no bound; the
explicit fuel only truncates the model (`none` = the loop has not
exited within `fuel` steps). -/
def calibSearch (meas : ℚ → ℚ) (maxD : ℚ) : ℕ → ℚ → Option (ℚ × ℚ)
  | 0, _ => none
  | fuel + 1, cur =>
      let it := cur * 2
      let dur := meas ((jsRound it : ℤ) : ℚ)
      if dur < maxD then calibSearch meas maxD fuel it else some (it, dur)

/-- `warmUp` of `bencher.ts`: run the geometric search from 1 and back
off the final count to `max(iterations / 2, (maxSampleDuration /
duration) * iterations)`.  Note the absence of any rounding: the
returned base iteration count is the raw rational maximum. -/
def warmUpB (meas : ℚ → ℚ) (o : Options) (fuel : ℕ) : Option ℚ :=
  (calibSearch meas (maxDur o) fuel 1).map fun s =>
    max (s.1 / 2) (maxDur o / s.2 * s.1)

/-! ## Sampling and the run pipeline (`run`, `bencher.ts` lines 138–163) -/

/-- The sweep: sample `i` is measured at
`iterations = baseIterations * (1 + (i % sweepWidth))`. -/
def sampleList (meas : ℚ → ℚ) (base : ℚ) (count sweep : ℕ) : List Sample :=
  (List.range count).map fun i =>
    ⟨base * (1 + (i % sweep : ℕ)), meas (base * (1 + (i % sweep : ℕ)))⟩

/-- The rational-valued core of a `run` result: the fit data plus the
outlier count and `usedSamples = samples.length - outliers`. -/
structure CoreRes where
  alpha : ℚ
  beta : ℚ
  stdErrSq : ℚ
  outliers : ℕ
  usedSamples : ℕ
deriving DecidableEq, Repr

/-- The `run` pipeline of `bencher.ts` up to the rate-space synthesis
(which is modelled separately, see `opsOf`/`maxErrorOf`, because the
confidence radius involves a square root): calibrate, sweep, regress,
and count `usedSamples = samples.length - outliers`.  `none` means the
calibration loop did not exit within `fuel` doublings. -/
def runCore (sortFn : List ℚ → List ℚ) (meas : ℚ → ℚ) (o : Options) (fuel : ℕ) :
    Option (Except String CoreRes) :=
  (warmUpB meas o fuel).map fun base =>
    (regressB sortFn (sampleList meas base o.samples o.sweepWidth)).map fun r =>
      ⟨r.alpha, r.beta, r.stdErrSq, r.outliers,
        (sampleList meas base o.samples o.sweepWidth).length - r.outliers⟩

/-! ## Result synthesizer (`run`, `bencher.ts` lines 151–154) -/

/-- `ops = 1 / beta`. -/
def opsOf (beta : ℚ) : ℚ := 1 / beta

/-- `lowOps = 1 / (beta + confidence)`. -/
def lowOpsOf (beta c : ℚ) : ℚ := 1 / (beta + c)

/-- `highOps = 1 / (beta - confidence)`. -/
def highOpsOf (beta c : ℚ) : ℚ := 1 / (beta - c)

/-- `maxError = Math.max(highOps - ops, ops - lowOps)`. -/
def maxErrorOf (beta c : ℚ) : ℚ :=
  max (highOpsOf beta c - opsOf beta) (opsOf beta - lowOpsOf beta c)

/-! ## Helper lemmas -/

theorem calibSearch_spec (meas : ℚ → ℚ) (maxD : ℚ) :
    ∀ (fuel : ℕ) (cur it dur : ℚ), calibSearch meas maxD fuel cur = some (it, dur) →
      (∃ k : ℕ, 1 ≤ k ∧ it = 2 ^ k * cur) ∧
      dur = meas ((jsRound it : ℤ) : ℚ) ∧ maxD ≤ dur := by
  intro fuel
  induction fuel with
  | zero =>
    intro cur it dur h
    exact absurd h (by simp [calibSearch])
  | succ f ih =>
    intro cur it dur h
    rw [show calibSearch meas maxD (f + 1) cur =
        if meas ((jsRound (cur * 2) : ℤ) : ℚ) < maxD then calibSearch meas maxD f (cur * 2)
        else some (cur * 2, meas ((jsRound (cur * 2) : ℤ) : ℚ)) from rfl] at h
    by_cases hc : meas ((jsRound (cur * 2) : ℤ) : ℚ) < maxD
    · rw [if_pos hc] at h
      obtain ⟨⟨k, hk, hit⟩, hdur, hmax⟩ := ih (cur * 2) it dur h
      exact ⟨⟨k + 1, by omega, by rw [hit]; ring⟩, hdur, hmax⟩
    · rw [if_neg hc] at h
      have hinj := Option.some.inj h
      obtain ⟨rfl, rfl⟩ : cur * 2 = it ∧ meas ((jsRound (cur * 2) : ℤ) : ℚ) = dur :=
        ⟨congrArg Prod.fst hinj, congrArg Prod.snd hinj⟩
      exact ⟨⟨1, le_refl 1, by ring⟩, rfl, not_lt.mp hc⟩

theorem jsInsert_length (d : ℚ) (l : List ℚ) : (jsInsert d l).length = l.length + 1 := by
  induction l with
  | nil => rfl
  | cons e es ih =>
    unfold jsInsert
    split
    · rfl
    · simp [ih]

theorem jsSort_length (l : List ℚ) : (jsSort l).length = l.length := by
  induction l with
  | nil => rfl
  | cons d ds ih => simp [jsSort, jsInsert_length, ih]

theorem insertSample_sizes (p : Sample) :
    ∀ bs : List (ℚ × List ℚ),
      ((insertSample bs p).map fun b => b.2.length).sum = ((bs.map fun b => b.2.length).sum) + 1 := by
  intro bs
  induction bs with
  | nil => simp [insertSample]
  | cons hd tl ih =>
    obtain ⟨k, ds⟩ := hd
    by_cases h : k = p.iterations
    · simp [insertSample, h]
      omega
    · simp [insertSample, h, ih]
      omega

theorem binsOf_sizes (samples : List Sample) :
    ((binsOf samples).map fun b => b.2.length).sum = samples.length := by
  suffices h : ∀ acc : List (ℚ × List ℚ),
      (((samples.foldl insertSample acc)).map fun b => b.2.length).sum =
        ((acc.map fun b => b.2.length).sum) + samples.length by
    simpa [binsOf] using h []
  induction samples with
  | nil => intro acc; simp
  | cons p ps ih =>
    intro acc
    simp only [List.foldl_cons, List.length_cons]
    rw [ih (insertSample acc p), insertSample_sizes]
    omega

theorem binRetained_length_le (sortFn : List ℚ → List ℚ)
    (hlen : ∀ l, (sortFn l).length = l.length) (ds : List ℚ) :
    (binRetained sortFn ds).length ≤ ds.length := by
  unfold binRetained
  calc ((sortFn ds).filter (binKeep sortFn ds)).length ≤ (sortFn ds).length :=
        List.length_filter_le _ _
  _ = ds.length := hlen ds

theorem withoutOutliers_length_le (sortFn : List ℚ → List ℚ)
    (hlen : ∀ l, (sortFn l).length = l.length) (samples : List Sample) :
    (withoutOutliers sortFn samples).length ≤ samples.length := by
  unfold withoutOutliers
  rw [List.length_flatMap]
  calc ((binsOf samples).map fun b =>
          ((binRetained sortFn b.2).map fun d => (⟨b.1, d⟩ : Sample)).length).sum
      ≤ ((binsOf samples).map fun b => b.2.length).sum := by
        refine List.sum_le_sum fun b _ => ?_
        rw [List.length_map]
        exact binRetained_length_le sortFn hlen b.2
  _ = samples.length := binsOf_sizes samples

theorem length_sampleList (meas : ℚ → ℚ) (base : ℚ) (count sweep : ℕ) :
    (sampleList meas base count sweep).length = count := by
  simp [sampleList]

theorem sum_map_affine (s : List Sample) (a b : ℚ) :
    (s.map fun p => a + b * p.iterations).sum =
      s.length * a + b * (s.map (·.iterations)).sum := by
  induction s with
  | nil => simp
  | cons p ps ih =>
    simp only [List.map_cons, List.sum_cons, List.length_cons, ih]
    push_cast
    ring

theorem sum_map_mul_const (s : List Sample) (c : ℚ) (f : Sample → ℚ) :
    (s.map fun p => c * f p).sum = c * (s.map f).sum := by
  induction s with
  | nil => simp
  | cons p ps ih =>
    simp only [List.map_cons, List.sum_cons, ih]
    ring

/-! ## Claim theorems -/

/-- C8: the Result Synthesizer computes `opsPerSecond = 1/beta`,
`lowOps = 1/(beta + confidenceRadius)`, `highOps = 1/(beta −
confidenceRadius)` and `errorMargin = max(highOps − ops, ops −
lowOps)`, and for any fixed confidence radius doubling `beta` exactly
halves `opsPerSecond`. -/
theorem C8_synthesizer (b c : ℚ) :
    opsOf b = 1 / b ∧
    lowOpsOf b c = 1 / (b + c) ∧
    highOpsOf b c = 1 / (b - c) ∧
    maxErrorOf b c = max (1 / (b - c) - 1 / b) (1 / b - 1 / (b + c)) ∧
    opsOf (2 * b) = opsOf b / 2 := by
  refine ⟨rfl, rfl, rfl, rfl, ?_⟩
  unfold opsOf
  rw [div_div, mul_comm]

/-- C4 (supporting evaluation): on the retained set
`[(iterations 5, duration 1), (iterations 5, duration 2)]` the sweep
is degenerate (`Σ(x_i − x̄)² = 0`), yet `regress` raises no error: its
only guard is the `n < 2` check, so it happily returns a fit whose
slope is the ill-defined ratio `betaNum / 0` (a `NaN` in the float
semantics of the source).  The claimed `DegenerateSweep` failure does
not exist in the code. -/
theorem C4_degenerate_sweep_not_fatal :
    betaDenom [⟨5, 1⟩, ⟨5, 2⟩] = 0 ∧ (fitOLS [⟨5, 1⟩, ⟨5, 2⟩]).isOk = true := by
  constructor
  · norm_num [betaDenom, meanIterations]
  · norm_num [fitOLS, Except.isOk, Except.toBool]

/-- C2 (supporting evaluation): `durations.sort()` sorts by the
default string comparator, not numerically.  On the bin
`[100, 2, 3, 4, 5]` the code's sorted array is `[100, 2, 3, 4, 5]`
(because the string `"100"` precedes `"2"`), so Q1 = 2, Q3 = 5, the
mild fence is `[-2.5, 9.5]` and 100 is discarded — whereas the claimed
numeric ascending sort yields `[2, 3, 4, 5, 100]`, Q1 = 3, Q3 = 100,
fence `[-142.5, 245.5]`, and nothing is discarded. -/
theorem C2_sort_is_lexicographic_not_numeric :
    jsSort [100, 2, 3, 4, 5] = [100, 2, 3, 4, 5] ∧
    numSort [100, 2, 3, 4, 5] = [2, 3, 4, 5, 100] ∧
    binRetained jsSort [100, 2, 3, 4, 5] = [2, 3, 4, 5] ∧
    binRetained numSort [100, 2, 3, 4, 5] = [2, 3, 4, 5, 100] := by
  refine ⟨?_, ?_, ?_, ?_⟩
  · norm_num [jsSort, jsInsert, jsLeB, decKey, natDigitsRev, strLe]
  · norm_num [numSort, numInsert]
  · norm_num [binRetained, binKeep, binQuartiles, i25, i75, jsSort, jsInsert, jsLeB, decKey,
      natDigitsRev, strLe, List.filter]
  · norm_num [binRetained, binKeep, binQuartiles, i25, i75, numSort, numInsert, List.filter]

/-- C3 (counterexample): on the bin `[1, 1, 1, 1, 100]` the upper
quartile is read at index `⌈0.75·5⌉ = 4`, i.e. Q3 = 100 — the outlier
itself — so `IQR = 99`, the mild fence is `[-147.5, 248.5]`, no sample
is flagged, and the filtering mode retains all five samples, not four. -/
theorem C3_counterexample :
    (binRetained jsSort [1, 1, 1, 1, 100]).length ≠ 4 ∧
    binCounts jsSort [1, 1, 1, 1, 100] = (0, 0) := by
  constructor
  · norm_num [binRetained, binKeep, binQuartiles, i25, i75, jsSort, jsInsert, jsLeB, decKey,
      natDigitsRev, strLe, List.filter]
  · norm_num [binCounts, binQuartiles, classifyD, i25, i75, jsSort, jsInsert, jsLeB, decKey,
      natDigitsRev, strLe, List.countP, List.countP.go]
    all_goals decide

/-- C3 (amended): for the bin `[1, 1, 1, 1, 100]` the classifier flags
nothing: Q1 = 1 (index 1), Q3 = 100 (index 4), all five durations lie
inside the mild fence, filtering retains all five samples, and the
counting mode classifies all five as Normal. -/
theorem C3_all_five_retained :
    binRetained jsSort [1, 1, 1, 1, 100] = [1, 1, 1, 1, 100] ∧
    binNormalCount jsSort [1, 1, 1, 1, 100] = 5 := by
  constructor
  · norm_num [binRetained, binKeep, binQuartiles, i25, i75, jsSort, jsInsert, jsLeB, decKey,
      natDigitsRev, strLe, List.filter]
  · norm_num [binNormalCount, binQuartiles, classifyD, i25, i75, jsSort, jsInsert, jsLeB, decKey,
      natDigitsRev, strLe, List.countP, List.countP.go]

/-- C9: the Sampler produces exactly `sampleCount` samples, the `i`-th
measured at `iterations = baseIterations * (1 + (i mod sweepWidth))`. -/
theorem C9_sampler_sweep (meas : ℚ → ℚ) (base : ℚ) (count sweep : ℕ) :
    (sampleList meas base count sweep).length = count ∧
    ∀ i : ℕ, i < count →
      ((sampleList meas base count sweep)[i]?).map Sample.iterations =
        some (base * (1 + (i % sweep : ℕ))) := by
  constructor
  · simp [sampleList]
  · intro i hi
    simp [sampleList, List.getElem?_range, hi]

/-- C9 witness: three samples at base 7 with sweep width 2; the sample
at index 2 is measured at `7 * (1 + 2 % 2)` iterations. -/
theorem C9_witness :
    (sampleList id 7 3 2).length = 3 ∧
    ((sampleList id 7 3 2)[2]?).map Sample.iterations =
      some ((7 : ℚ) * (1 + ((2 % 2 : ℕ) : ℚ))) :=
  ⟨(C9_sampler_sweep id 7 3 2).1, (C9_sampler_sweep id 7 3 2).2 2 (by norm_num)⟩

/-- C6: the calibration loop of `warmUp` has no ceiling.  With a clock
that reads 0 at every doubling (a workload faster than the clock's
resolution) and any positive `maxSampleDuration`, the `do … while`
never exits: no finite number of steps suffices.  The claimed fatal
calibration error at an explicit ceiling does not exist in the code. -/
theorem C6_calibration_never_terminates (maxD : ℚ) (h : 0 < maxD) :
    ∀ (fuel : ℕ) (cur : ℚ), calibSearch (fun _ => 0) maxD fuel cur = none := by
  intro fuel
  induction fuel with
  | zero => intro cur; rfl
  | succ f ih =>
    intro cur
    show (if (0 : ℚ) < maxD then calibSearch (fun _ => 0) maxD f (cur * 2) else _) = none
    rw [if_pos h]
    exact ih (cur * 2)

/-- C6 witness: with unit budget and 20 doublings of fuel the loop has
still not exited. -/
theorem C6_witness :
    (0 : ℚ) < 1 ∧ calibSearch (fun _ => 0) 1 20 1 = none :=
  ⟨by norm_num, C6_calibration_never_terminates 1 (by norm_num) 20 1⟩

/-- C1: on a retained sample set of size `n ≥ 2` with non-zero
iteration-count variance, `regress` computes exactly the spec's
ordinary-least-squares fit (`fitSlope`/`fitIntercept`/`stdErrSq` agree
with the formulas of §4.4, the confidence radius being the fixed
`STUDENT_T = 3.09` times the square root of `stdErrSq` by the
definition of `confidence`), and on noise-free samples generated as
`duration = a + b·iterations` it recovers `alpha = a`, `beta = b` and
a zero confidence radius in exact arithmetic.  (At exactly `n = 2` the
exact residual sum is 0 and the rational convention `0 / 0 = 0`
realises the zero residual variance; IEEE floats would produce `NaN`
there, which is why the witness uses `n = 3`.) -/
theorem C1_ols_exact_recovery (s : List Sample) (a b : ℚ)
    (h2 : 2 ≤ s.length) (hd : betaDenom s ≠ 0)
    (hlin : ∀ p ∈ s, p.duration = a + b * p.iterations) :
    fitSlope s = specSlope s ∧ fitIntercept s = specIntercept s ∧
    stdErrSq s = specSigmaSq s / betaDenom s ∧
    fitSlope s = b ∧ fitIntercept s = a ∧ stdErrSq s = 0 ∧ confidence s = 0 := by
  have hn : (s.length : ℚ) ≠ 0 := Nat.cast_ne_zero.mpr (by omega)
  have hmapD : s.map (·.duration) = s.map fun p => a + b * p.iterations :=
    List.map_congr_left hlin
  have hmean : meanDuration s = a + b * meanIterations s := by
    unfold meanDuration meanIterations
    rw [hmapD, sum_map_affine]
    field_simp
    ring
  have hpoint : ∀ p ∈ s,
      (p.duration - meanDuration s) * (p.iterations - meanIterations s) =
        b * (p.iterations - meanIterations s) ^ 2 := by
    intro p hp
    rw [hlin p hp, hmean]
    ring
  have hnum : betaNum s = b * betaDenom s := by
    unfold betaNum betaDenom
    rw [List.map_congr_left hpoint, sum_map_mul_const]
  have hbeta : fitSlope s = b := by
    unfold fitSlope
    rw [hnum]
    exact mul_div_cancel_right₀ b hd
  have halpha : fitIntercept s = a := by
    unfold fitIntercept
    rw [hbeta, hmean]
    ring
  have hres : residSumSq s = 0 := by
    unfold residSumSq
    have hzero : ∀ p ∈ s,
        (p.duration - fitIntercept s - fitSlope s * p.iterations) ^ 2 = (0 : ℚ) := by
      intro p hp
      rw [hlin p hp, halpha, hbeta]
      ring
    rw [List.map_congr_left hzero]
    simp
  have hstd : stdErrSq s = 0 := by
    unfold stdErrSq
    rw [hres, zero_div, zero_div]
  have hconf : confidence s = 0 := by
    unfold confidence standardError
    rw [hstd]
    simp
  exact ⟨rfl, rfl, rfl, hbeta, halpha, hstd, hconf⟩

/-- C1 witness: three noise-free samples on the line
`duration = 1 + 2·iterations`; the fit recovers slope 2, intercept 1
and zero confidence radius. -/
theorem C1_witness :
    fitSlope [⟨1, 3⟩, ⟨2, 5⟩, ⟨3, 7⟩] = 2 ∧
    fitIntercept [⟨1, 3⟩, ⟨2, 5⟩, ⟨3, 7⟩] = 1 ∧
    confidence [⟨1, 3⟩, ⟨2, 5⟩, ⟨3, 7⟩] = 0 := by
  obtain ⟨-, -, -, hb, ha, -, hc⟩ :=
    C1_ols_exact_recovery [⟨1, 3⟩, ⟨2, 5⟩, ⟨3, 7⟩] 1 2
      (by norm_num)
      (by norm_num [betaDenom, meanIterations])
      (by
        intro p hp
        simp only [List.mem_cons, List.not_mem_nil, or_false] at hp
        rcases hp with rfl | rfl | rfl <;> norm_num)
  exact ⟨hb, ha, hc⟩

/-- C5 (counterexample): with the clock `meas q = q / 10` and options
`duration = 1, samples = 4, sweepWidth = 2`, the search stops at the
first doubling (2 iterations measuring 1/5 ≥ maxSampleDuration = 1/6)
and `warmUp` returns `max(2/2, (1/6)/(1/5)·2) = 5/3` — a value that is
*not* its own nearest-integer rounding, because `bencher.ts` applies
no `Math.round` to the back-off.  Moreover (third conjunct) with the
clock `meas q = q / 12` the loop already exits when the measured
duration *equals* `maxSampleDuration = 1/6`, i.e. without the measured
duration strictly exceeding it. -/
theorem C5_counterexample :
    warmUpB (fun q => q / 10) ⟨1, 4, 2, 1⟩ 5 = some (5 / 3) ∧
    (5 / 3 : ℚ) ≠ ((jsRound (5 / 3 : ℚ) : ℤ) : ℚ) ∧
    calibSearch (fun q => q / 12) (1 / 6) 5 1 = some (2, 1 / 6) := by
  refine ⟨?_, ?_, ?_⟩
  · norm_num [warmUpB, calibSearch, maxDur, sweepTotal, jsRound, List.range, List.range.loop,
      Int.floor]
  · norm_num [jsRound]
  · norm_num [calibSearch, jsRound]

/-- C5 (amended): whenever the geometric search exits, having doubled
from 1 to `it = 2^k` iterations (k ≥ 1) with final measured duration
`dur` satisfying `maxSampleDuration ≤ dur` (the loop exits as soon as
the duration *reaches* the bound, equality included), `warmUp` returns
exactly `max(it / 2, (maxSampleDuration / dur) · it)` — unrounded, and
at least 1. -/
theorem C5_calibration_backoff (meas : ℚ → ℚ) (o : Options) (fuel : ℕ) (it dur : ℚ)
    (h : calibSearch meas (maxDur o) fuel 1 = some (it, dur)) :
    warmUpB meas o fuel = some (max (it / 2) (maxDur o / dur * it)) ∧
    maxDur o ≤ dur ∧ dur = meas ((jsRound it : ℤ) : ℚ) ∧
    (∃ k : ℕ, 1 ≤ k ∧ it = 2 ^ k) ∧
    1 ≤ max (it / 2) (maxDur o / dur * it) := by
  obtain ⟨⟨k, hk, hit⟩, hdur, hmax⟩ := calibSearch_spec meas (maxDur o) fuel 1 it dur h
  have hit' : it = 2 ^ k := by rw [hit]; ring
  have h2 : (2 : ℚ) ≤ it := by
    rw [hit']
    calc (2 : ℚ) = 2 ^ 1 := (pow_one 2).symm
    _ ≤ 2 ^ k := pow_le_pow_right₀ (by norm_num) hk
  refine ⟨?_, hmax, hdur, ⟨k, hk, hit'⟩, ?_⟩
  · unfold warmUpB
    rw [h]
    rfl
  · have h1 : (1 : ℚ) ≤ it / 2 := by linarith
    exact le_trans h1 (le_max_left _ _)

/-- C5 witness: the concrete calibration of `C5_counterexample`,
through the amended theorem. -/
theorem C5_witness :
    warmUpB (fun q => q / 10) ⟨1, 4, 2, 1⟩ 5 =
      some (max ((2 : ℚ) / 2) (maxDur ⟨1, 4, 2, 1⟩ / (1 / 5) * 2)) ∧
    maxDur ⟨1, 4, 2, 1⟩ ≤ 1 / 5 ∧
    (1 / 5 : ℚ) = (fun q => q / 10) ((jsRound (2 : ℚ) : ℤ) : ℚ) ∧
    (∃ k : ℕ, 1 ≤ k ∧ (2 : ℚ) = 2 ^ k) ∧
    1 ≤ max ((2 : ℚ) / 2) (maxDur ⟨1, 4, 2, 1⟩ / (1 / 5) * 2) :=
  C5_calibration_backoff (fun q => q / 10) ⟨1, 4, 2, 1⟩ 5 2 (1 / 5)
    (by norm_num [calibSearch, maxDur, sweepTotal, jsRound, List.range, List.range.loop,
      Int.floor])

/-- C7 (counterexample): two sample lists that differ only in one
duration — a mild outlier (4) versus a severe outlier (8) in a bin
with quartiles 1 and 2 — produce *identical* results from the
filtering-mode `regress` of `bencher.ts` (the offending sample is
outside the mild fence either way, so the retained set, the fit and
the single `outliers` count coincide), while the counting-mode severe
counts differ.  Hence the final report of a filtering run cannot
contain `severeOutlierCount`: it is not computed there. -/
theorem C7_report_misses_severe_count :
    regressB jsSort ([0, 0, 1, 1, 1, 1, 2, 4].map fun d => ⟨1, d⟩) =
      regressB jsSort ([0, 0, 1, 1, 1, 1, 2, 8].map fun d => ⟨1, d⟩) ∧
    severeCountOf jsSort ([0, 0, 1, 1, 1, 1, 2, 4].map fun d => ⟨1, d⟩) ≠
      severeCountOf jsSort ([0, 0, 1, 1, 1, 1, 2, 8].map fun d => ⟨1, d⟩) := by
  constructor
  · norm_num [regressB, withoutOutliers, binsOf, insertSample, binRetained, binKeep,
      binQuartiles, i25, i75, jsSort, jsInsert, jsLeB, decKey, natDigitsRev, strLe, List.filter,
      fitIntercept, fitSlope, betaNum, betaDenom, meanIterations, meanDuration, stdErrSq,
      residSumSq]
  · norm_num [severeCountOf, binsOf, insertSample, binCounts, binQuartiles, classifyD,
      i25, i75, jsSort, jsInsert, jsLeB, decKey, natDigitsRev, strLe, List.countP, List.countP.go]
    all_goals decide

/-- C7 (amended): the counting-mode classifier assigns every duration
exactly one of the three classes, characterised — for any bin whose
quartiles satisfy `Q1 ≤ Q3`, as numeric ascending sorting guarantees —
by: inside the mild fence ↔ Normal; inside the severe fence but
outside the mild fence ↔ Outlier; outside the severe fence ↔
SevereOutlier. -/
theorem C7_trichotomy (p25 p75 d : ℚ) (h : p25 ≤ p75) :
    (classifyD p25 p75 d = .severeOutlier ↔
      d < p25 - (p75 - p25) * 3 ∨ p75 + (p75 - p25) * 3 < d) ∧
    (classifyD p25 p75 d = .outlier ↔
      (p25 - (p75 - p25) * 3 ≤ d ∧ d ≤ p75 + (p75 - p25) * 3) ∧
      (d < p25 - (p75 - p25) * (3 / 2) ∨ p75 + (p75 - p25) * (3 / 2) < d)) ∧
    (classifyD p25 p75 d = .normal ↔
      p25 - (p75 - p25) * (3 / 2) ≤ d ∧ d ≤ p75 + (p75 - p25) * (3 / 2)) := by
  have hiqr : 0 ≤ p75 - p25 := sub_nonneg.mpr h
  unfold classifyD
  split_ifs with h1 h2
  · refine ⟨⟨fun _ => h1, fun _ => rfl⟩, ⟨fun hc => by simp at hc, ?_⟩,
      ⟨fun hc => by simp at hc, ?_⟩⟩
    · rintro ⟨⟨hl, hr⟩, -⟩
      rcases h1 with h1 | h1 <;> linarith
    · rintro ⟨hl, hr⟩
      rcases h1 with h1 | h1 <;> linarith
  · have h1' := not_or.mp h1
    refine ⟨⟨fun hc => by simp at hc, fun hc => absurd hc h1⟩,
      ⟨fun _ => ⟨⟨not_lt.mp h1'.1, not_lt.mp h1'.2⟩, h2⟩, fun _ => rfl⟩,
      ⟨fun hc => by simp at hc, ?_⟩⟩
    rintro ⟨hl, hr⟩
    rcases h2 with h2 | h2 <;> linarith
  · have h2' := not_or.mp h2
    exact ⟨⟨fun hc => by simp at hc, fun hc => absurd hc h1⟩,
      ⟨fun hc => by simp at hc, fun hc => absurd hc.2 h2⟩,
      ⟨fun _ => ⟨not_lt.mp h2'.1, not_lt.mp h2'.2⟩, fun _ => rfl⟩⟩

/-- C7 witness: with quartiles 0 and 1 the duration 10 lies outside
the severe fence `[-3, 4]` and is classified a severe outlier. -/
theorem C7_witness :
    (classifyD 0 1 10 = .severeOutlier ↔
      (10 : ℚ) < 0 - (1 - 0) * 3 ∨ (1 : ℚ) + (1 - 0) * 3 < 10) ∧
    (classifyD 0 1 10 = .outlier ↔
      (0 - (1 - 0) * 3 ≤ (10 : ℚ) ∧ (10 : ℚ) ≤ 1 + (1 - 0) * 3) ∧
      ((10 : ℚ) < 0 - (1 - 0) * (3 / 2) ∨ (1 : ℚ) + (1 - 0) * (3 / 2) < 10)) ∧
    (classifyD 0 1 10 = .normal ↔
      0 - (1 - 0) * (3 / 2) ≤ (10 : ℚ) ∧ (10 : ℚ) ≤ 1 + (1 - 0) * (3 / 2)) :=
  C7_trichotomy 0 1 10 (by norm_num)

/-- C10: in every run that completes without error, the reported
retained sample count `usedSamples` equals the length of the
mild-fence-retained set `withoutOutliers` (the samples lying inside
the mild fences of their bins), equals `sampleCount - outliers`, and
satisfies `2 ≤ usedSamples ≤ sampleCount` (the lower bound because
`regress` throws below 2 retained samples, the upper bound because
fencing only removes samples). -/
theorem C10_retained_count_invariant (meas : ℚ → ℚ) (o : Options) (fuel : ℕ) (r : CoreRes)
    (h : runCore jsSort meas o fuel = some (.ok r)) :
    ∃ base, warmUpB meas o fuel = some base ∧
      r.usedSamples =
        (withoutOutliers jsSort (sampleList meas base o.samples o.sweepWidth)).length ∧
      r.outliers = o.samples - r.usedSamples ∧
      r.usedSamples = o.samples - r.outliers ∧
      2 ≤ r.usedSamples ∧ r.usedSamples ≤ o.samples := by
  unfold runCore at h
  cases hw : warmUpB meas o fuel with
  | none =>
    rw [hw] at h
    simp at h
  | some base =>
    rw [hw] at h
    simp only [Option.map_some'] at h
    have h' := Option.some.inj h
    unfold regressB at h'
    by_cases hlen :
        (withoutOutliers jsSort (sampleList meas base o.samples o.sweepWidth)).length < 2
    · rw [if_pos hlen] at h'
      simp [Except.map] at h'
    · rw [if_neg hlen] at h'
      simp only [Except.map] at h'
      have hr := (Except.ok.inj h').symm
      have hwle :
          (withoutOutliers jsSort (sampleList meas base o.samples o.sweepWidth)).length ≤
            (sampleList meas base o.samples o.sweepWidth).length :=
        withoutOutliers_length_le jsSort jsSort_length _
      have hsl : (sampleList meas base o.samples o.sweepWidth).length = o.samples :=
        length_sampleList meas base o.samples o.sweepWidth
      refine ⟨base, rfl, ?_, ?_, ?_, ?_, ?_⟩
      · rw [hr]
        simp only []
        omega
      · rw [hr]
        simp only []
        omega
      · rw [hr]
        simp only []
        omega
      · rw [hr]
        simp only []
        omega
      · rw [hr]
        simp only []
        omega

/-- C10 witness: with the clock `meas q = q` and options
`duration = 6, samples = 4, sweepWidth = 2` the run succeeds with
4 retained samples and 0 outliers. -/
theorem C10_witness :
    (⟨0, 1, 0, 0, 4⟩ : CoreRes).outliers =
      (⟨6, 4, 2, 1⟩ : Options).samples - (⟨0, 1, 0, 0, 4⟩ : CoreRes).usedSamples ∧
    2 ≤ (⟨0, 1, 0, 0, 4⟩ : CoreRes).usedSamples ∧
    (⟨0, 1, 0, 0, 4⟩ : CoreRes).usedSamples ≤ (⟨6, 4, 2, 1⟩ : Options).samples := by
  obtain ⟨base, -, -, h1, -, h2, h3⟩ :=
    C10_retained_count_invariant (fun q => q) ⟨6, 4, 2, 1⟩ 5 ⟨0, 1, 0, 0, 4⟩
      (by
        norm_num [runCore, warmUpB, calibSearch, maxDur, sweepTotal, jsRound, List.range,
          List.range.loop, Int.floor, regressB, withoutOutliers, binsOf, insertSample,
          binRetained, binKeep, binQuartiles, i25, i75, jsSort, jsInsert, jsLeB, decKey,
          natDigitsRev, strLe, List.filter, sampleList, fitIntercept, fitSlope, betaNum,
          betaDenom, meanIterations, meanDuration, stdErrSq, residSumSq, Except.map])
  exact ⟨h1, h2, h3⟩

end Bencher
